import Mathlib

/-!
Shallow embedding of the `denyenv` validating admission webhook
(`src/index.js`) and proofs about the claims of its specification.

The JavaScript function receives an admission-review request body,
reads `request.object`, iterates over `object.spec.containers`, and
denies the pod when any container carries an `"env"` field (a field
presence check).  A status block with code 402 and the message
`<name> is using env vars` is written on every match, so a later
match overwrites an earlier one.  Absent fields of the untyped JSON
body are modelled with `Option`; reading a field of an absent value
throws a `TypeError` in JavaScript, modelled with `Except.error`.
-/

/-- One entry of a container's `env` list (name/value pair).
The decision logic never inspects the entries, only the presence of
the list itself. -/
structure EnvVar where
  name : String
  value : String
deriving DecidableEq, Repr

/-- One container of the pod spec.  `name` is absent-able (the code
would interpolate the string `undefined`); `env = none` models the
`"env"` field being absent, `env = some l` models it present bound to
list `l` (possibly empty). -/
structure Container where
  name : Option String
  env : Option (List EnvVar)
deriving DecidableEq, Repr

/-- `object.metadata` of the pod object. -/
structure Metadata where
  name : Option String
deriving DecidableEq, Repr

/-- `object.spec` of the pod object; `containers` may be absent. -/
structure PodSpec where
  containers : Option (List Container)
deriving DecidableEq, Repr

/-- The embedded resource object (`request.object`).  `kind` is an
arbitrary field that the code never reads. -/
structure KObject where
  kind : Option String
  metadata : Option Metadata
  spec : Option PodSpec
deriving DecidableEq, Repr

/-- The inbound `request` field of the review body. -/
structure AdmissionRequest where
  uid : String
  object : Option KObject
deriving DecidableEq, Repr

/-- The whole inbound review body (`req.body`); `request` may be
absent in a malformed envelope. -/
structure ReqBody where
  request : Option AdmissionRequest
deriving DecidableEq, Repr

/-- The `status` block the code writes on a denial. -/
structure RespStatus where
  status : String
  message : String
  reason : String
  code : Nat
deriving DecidableEq, Repr

/-- The `response` value built by the code: `allowed` plus an
optional `status` block. -/
structure AdmissionResponse where
  allowed : Bool
  status : Option RespStatus
deriving DecidableEq, Repr

/-- The outbound review envelope the code serializes:
`{ response: admissionResponse }` and nothing else. -/
structure AdmissionReview where
  response : AdmissionResponse
deriving DecidableEq, Repr

/-- JavaScript template-string rendering of a possibly absent string
field: an absent field prints as `undefined`. -/
def jsShow : Option String → String
  | some s => s
  | none => "undefined"

/-- The message the code writes for an offending container. -/
def envMessage (c : Container) : String :=
  jsShow c.name ++ " is using env vars"

/-- The status block written when container `c` carries `"env"`:
`{status: Failure, message, reason, code: 402}`. -/
def mkFailStatus (c : Container) : RespStatus :=
  ⟨"Failure", envMessage c, envMessage c, 402⟩

/-- One iteration of the `for (var container of containers)` loop:
the accumulator is the pair (`found` flag, current `status` field).
On a container with `"env"` present the code sets `found = true` and
unconditionally overwrites `status`. -/
def loopStep (acc : Bool × Option RespStatus) (c : Container) :
    Bool × Option RespStatus :=
  if c.env.isSome then (true, some (mkFailStatus c)) else acc

/-- The whole loop, started from `found = false` and no status. -/
def runContainers (cs : List Container) : Bool × Option RespStatus :=
  cs.foldl loopStep (false, none)

/-- The `admissionResponse` value after the loop and the
`if (!found) allowed = true` fixup. -/
def decideResponse (cs : List Container) : AdmissionResponse :=
  ⟨!(runContainers cs).1, (runContainers cs).2⟩

/-- The embedded `denyenv` function.  Field accesses on absent values
(`admissionRequest.request.object`, `object.metadata.name`,
`object.spec.containers`, iterating a missing list) throw in
JavaScript and surface as transport-level failures; here they are
`Except.error`.  A completed review is `Except.ok` of the serialized
envelope. -/
def denyenv (body : ReqBody) : Except String AdmissionReview :=
  match body.request with
  | none => .error "TypeError: cannot read field object of undefined"
  | some req =>
    match req.object with
    | none => .error "TypeError: cannot read field metadata of undefined"
    | some obj =>
      match obj.metadata with
      | none => .error "TypeError: cannot read field name of undefined"
      | some _md =>
        match obj.spec with
        | none => .error "TypeError: cannot read field containers of undefined"
        | some spec =>
          match spec.containers with
          | none => .error "TypeError: containers is not iterable"
          | some cs => .ok ⟨decideResponse cs⟩

/-- Builder for a well-formed review body: every mandatory field is
present. -/
def mkBody (u : String) (k : Option String) (md : Metadata)
    (cs : List Container) : ReqBody :=
  ⟨some ⟨u, some ⟨k, some md, some ⟨some cs⟩⟩⟩⟩

/-- `found` after the loop: whether any container has `"env"`. -/
def scanFound (cs : List Container) : Bool :=
  cs.any fun c => c.env.isSome

/-- The last container of the list whose `"env"` field is present,
if any: the one whose status block survives the overwrites. -/
def lastEnv : List Container → Option Container
  | [] => none
  | c :: cs =>
    match lastEnv cs with
    | some d => some d
    | none => if c.env.isSome then some c else none

lemma foldl_loopStep_fst (cs : List Container) :
    ∀ (b : Bool) (st : Option RespStatus),
      (List.foldl loopStep (b, st) cs).1 = (b || scanFound cs) := by
  induction cs with
  | nil => intro b st; simp [scanFound]
  | cons c cs ih =>
    intro b st
    by_cases h : c.env.isSome
    · simp [List.foldl_cons, loopStep, h, ih, scanFound, List.any_cons]
    · simp [List.foldl_cons, loopStep, h, ih, scanFound, List.any_cons]

lemma foldl_loopStep_snd (cs : List Container) :
    ∀ (b : Bool) (st : Option RespStatus),
      (List.foldl loopStep (b, st) cs).2 =
        (match lastEnv cs with
         | some c => some (mkFailStatus c)
         | none => st) := by
  induction cs with
  | nil => intro b st; simp [lastEnv]
  | cons c cs ih =>
    intro b st
    rcases hl : lastEnv cs with _ | d
    · by_cases h : c.env.isSome
      · simp [List.foldl_cons, loopStep, h, ih, lastEnv, hl]
      · simp [List.foldl_cons, loopStep, h, ih, lastEnv, hl]
    · by_cases h : c.env.isSome
      · simp [List.foldl_cons, loopStep, h, ih, lastEnv, hl]
      · simp [List.foldl_cons, loopStep, h, ih, lastEnv, hl]

lemma lastEnv_mem {cs : List Container} {c : Container}
    (h : lastEnv cs = some c) : c ∈ cs ∧ c.env.isSome = true := by
  induction cs with
  | nil => simp [lastEnv] at h
  | cons a as ih =>
    rcases hl : lastEnv as with _ | d
    · rw [lastEnv, hl] at h
      by_cases ha : a.env.isSome
      · simp [ha] at h
        subst h
        exact ⟨List.mem_cons_self a as, ha⟩
      · simp [ha] at h
    · rw [lastEnv, hl] at h
      simp at h
      subst h
      obtain ⟨hmem, henv⟩ := ih hl
      exact ⟨List.mem_cons_of_mem a hmem, henv⟩

lemma scanFound_cons (a : Container) (as : List Container) :
    scanFound (a :: as) = (a.env.isSome || scanFound as) := by
  simp [scanFound, List.any_cons]

lemma lastEnv_eq_none_iff (cs : List Container) :
    lastEnv cs = none ↔ scanFound cs = false := by
  induction cs with
  | nil => simp [lastEnv, scanFound]
  | cons a as ih =>
    rw [scanFound_cons]
    rcases hl : lastEnv as with _ | d
    · have h2 := ih.mp hl
      by_cases ha : a.env.isSome
      · rw [lastEnv, hl]
        simp [ha, h2]
      · rw [lastEnv, hl]
        simp [ha, h2]
    · rw [lastEnv, hl]
      have h2 : scanFound as = true := by
        cases hsf : scanFound as with
        | false =>
          have hn := ih.mpr hsf
          rw [hn] at hl
          cases hl
        | true => rfl
      simp [h2]

lemma scanFound_eq_false_iff (cs : List Container) :
    scanFound cs = false ↔ ∀ c ∈ cs, c.env = none := by
  rw [scanFound, List.any_eq_false]
  constructor
  · intro h c hc
    have hn := h c hc
    cases hce : c.env with
    | none => rfl
    | some l => rw [hce] at hn; simp at hn
  · intro h c hc
    rw [h c hc]
    simp

lemma decideResponse_allowed (cs : List Container) :
    (decideResponse cs).allowed = !scanFound cs := by
  simp [decideResponse, runContainers, foldl_loopStep_fst]

lemma decideResponse_status (cs : List Container) :
    (decideResponse cs).status =
      (match lastEnv cs with
       | some c => some (mkFailStatus c)
       | none => none) := by
  simp [decideResponse, runContainers, foldl_loopStep_snd]

lemma denyenv_mkBody (u : String) (k : Option String) (md : Metadata)
    (cs : List Container) :
    denyenv (mkBody u k md cs) = .ok ⟨decideResponse cs⟩ := rfl

/-- C1: for every well-formed admission request, the response's
`allowed` flag is true if and only if no container of
`object.spec.containers` carries an `"env"` field. -/
theorem allowed_iff_no_env (u : String) (k : Option String) (md : Metadata)
    (cs : List Container) :
    ∃ r : AdmissionReview, denyenv (mkBody u k md cs) = .ok r ∧
      (r.response.allowed = true ↔ ∀ c ∈ cs, c.env = none) := by
  refine ⟨⟨decideResponse cs⟩, denyenv_mkBody u k md cs, ?_⟩
  show (decideResponse cs).allowed = true ↔ _
  rw [decideResponse_allowed, Bool.not_eq_eq_eq_not, Bool.not_true,
    scanFound_eq_false_iff]

/-- C2: every request in which some container has an `"env"` field is
answered with `allowed = false` and a status block whose status is
`Failure`, whose code is 402, and whose message and reason are
`<name> is using env vars` for a container that has the field. -/
theorem denial_status_names_env_container (u : String) (k : Option String)
    (md : Metadata) (cs : List Container)
    (h : ∃ c ∈ cs, c.env.isSome = true) :
    ∃ r : AdmissionReview, denyenv (mkBody u k md cs) = .ok r ∧
      r.response.allowed = false ∧
      ∃ s : RespStatus, r.response.status = some s ∧
        s.status = "Failure" ∧ s.code = 402 ∧
        ∃ c ∈ cs, c.env.isSome = true ∧
          s.message = jsShow c.name ++ " is using env vars" ∧
          s.reason = jsShow c.name ++ " is using env vars" := by
  have hsf : scanFound cs = true := by
    obtain ⟨c, hc, hce⟩ := h
    cases hcase : scanFound cs with
    | false =>
      have := (scanFound_eq_false_iff cs).mp hcase c hc
      rw [this] at hce
      cases hce
    | true => rfl
  obtain ⟨c0, hc0⟩ : ∃ c0, lastEnv cs = some c0 := by
    cases hl : lastEnv cs with
    | none =>
      rw [lastEnv_eq_none_iff cs] at hl
      rw [hl] at hsf
      cases hsf
    | some c0 => exact ⟨c0, rfl⟩
  obtain ⟨hmem, henv⟩ := lastEnv_mem hc0
  refine ⟨⟨decideResponse cs⟩, denyenv_mkBody u k md cs, ?_, ?_⟩
  · show (decideResponse cs).allowed = false
    rw [decideResponse_allowed, hsf]
    rfl
  · refine ⟨mkFailStatus c0, ?_, rfl, rfl, c0, hmem, henv, rfl, rfl⟩
    show (decideResponse cs).status = some (mkFailStatus c0)
    rw [decideResponse_status, hc0]

theorem denial_status_names_env_container_witness :
    (∃ c ∈ [(⟨some "nginx-with-env", some [⟨"PASSWORD", "fail"⟩]⟩ : Container)],
       c.env.isSome = true) ∧
    ∃ r : AdmissionReview,
      denyenv (mkBody "uid-1" none ⟨some "nginx-with-env"⟩
        [⟨some "nginx-with-env", some [⟨"PASSWORD", "fail"⟩]⟩]) = .ok r ∧
      r.response.allowed = false ∧
      ∃ s : RespStatus, r.response.status = some s ∧
        s.status = "Failure" ∧ s.code = 402 ∧
        ∃ c ∈ [(⟨some "nginx-with-env", some [⟨"PASSWORD", "fail"⟩]⟩ : Container)],
          c.env.isSome = true ∧
          s.message = jsShow c.name ++ " is using env vars" ∧
          s.reason = jsShow c.name ++ " is using env vars" :=
  ⟨by decide, denial_status_names_env_container "uid-1" none ⟨some "nginx-with-env"⟩
    [⟨some "nginx-with-env", some [⟨"PASSWORD", "fail"⟩]⟩] (by decide)⟩

/-- C3 counterexample: with two containers `a` and `b` both carrying
`"env"`, the reported message is `b is using env vars` — the LAST
failing container in iteration order, not the first (`a`), because
the loop overwrites `status` on every match. -/
theorem first_message_cex :
    denyenv (mkBody "u" none ⟨some "p"⟩
      [⟨some "a", some []⟩, ⟨some "b", some []⟩]) =
      .ok ⟨⟨false, some ⟨"Failure", "b is using env vars",
        "b is using env vars", 402⟩⟩⟩ ∧
    "b is using env vars" ≠ "a is using env vars" := by
  constructor
  · rfl
  · decide

/-- C3 amended: when several containers carry `"env"`, the message
and reason of the denial are those of the last such container in
iteration order (the loop unconditionally overwrites the status
block on every match). -/
theorem last_message_wins (u : String) (k : Option String) (md : Metadata)
    (cs : List Container) (c : Container) (h : lastEnv cs = some c) :
    denyenv (mkBody u k md cs) = .ok ⟨⟨false, some (mkFailStatus c)⟩⟩ := by
  have hsf : scanFound cs = true := by
    cases hcase : scanFound cs with
    | false =>
      have := (lastEnv_eq_none_iff cs).mpr hcase
      rw [this] at h
      cases h
    | true => rfl
  rw [denyenv_mkBody u k md cs]
  have hresp : decideResponse cs = ⟨false, some (mkFailStatus c)⟩ := by
    have ha := decideResponse_allowed cs
    have hs := decideResponse_status cs
    rw [hsf] at ha
    rw [h] at hs
    cases hr : decideResponse cs with
    | mk al st =>
      rw [hr] at ha hs
      simp only at ha hs
      rw [ha, hs]
      rfl
  rw [hresp]

theorem last_message_wins_witness :
    lastEnv [⟨some "a", some []⟩, ⟨some "b", some []⟩] =
      some ⟨some "b", some []⟩ ∧
    denyenv (mkBody "w" none ⟨some "p"⟩
      [⟨some "a", some []⟩, ⟨some "b", some []⟩]) =
      .ok ⟨⟨false, some (mkFailStatus ⟨some "b", some []⟩)⟩⟩ :=
  ⟨rfl, last_message_wins "w" none ⟨some "p"⟩
    [⟨some "a", some []⟩, ⟨some "b", some []⟩] ⟨some "b", some []⟩ rfl⟩

/-- C4: the check is a presence check, not a value check: a request
whose only container has `"env"` present but bound to the empty list
is denied, with the status naming that container. -/
theorem empty_env_list_denied (u : String) (k : Option String)
    (md : Metadata) (n : String) :
    denyenv (mkBody u k md [⟨some n, some []⟩]) =
      .ok ⟨⟨false, some ⟨"Failure", n ++ " is using env vars",
        n ++ " is using env vars", 402⟩⟩⟩ := rfl

/-- C5: for every well-formed request, the status block is present
if and only if `allowed` is false. -/
theorem status_present_iff_denied (u : String) (k : Option String)
    (md : Metadata) (cs : List Container) :
    ∃ r : AdmissionReview, denyenv (mkBody u k md cs) = .ok r ∧
      (r.response.status.isSome = true ↔ r.response.allowed = false) := by
  refine ⟨⟨decideResponse cs⟩, denyenv_mkBody u k md cs, ?_⟩
  show (decideResponse cs).status.isSome = true ↔
    (decideResponse cs).allowed = false
  rw [decideResponse_allowed, decideResponse_status,
    Bool.not_eq_false_eq_eq_true]
  rcases hl : lastEnv cs with _ | c
  · have := (lastEnv_eq_none_iff cs).mp hl
    simp [this]
  · have hsf : scanFound cs = true := by
      cases hcase : scanFound cs with
      | false =>
        have := (lastEnv_eq_none_iff cs).mpr hcase
        rw [this] at hl
        cases hl
      | true => rfl
    simp [hsf]

/-- C6 counterexample: two requests that differ only in `request.uid`
produce the identical outbound envelope, so the response cannot carry
the request's uid: the code builds `{ response: ... }` with no uid
field at all. -/
theorem uid_echo_cex :
    denyenv (mkBody "uid-a" none ⟨some "p"⟩ [⟨some "nginx", none⟩]) =
      denyenv (mkBody "uid-b" none ⟨some "p"⟩ [⟨some "nginx", none⟩]) ∧
    "uid-a" ≠ "uid-b" := ⟨rfl, by decide⟩

/-- C6 amended: the outbound review does not echo the request's uid;
the envelope wraps only the decision, and the response to a
well-formed request is entirely independent of `request.uid`. -/
theorem response_independent_of_uid (u1 u2 : String) (k : Option String)
    (md : Metadata) (cs : List Container) :
    denyenv (mkBody u1 k md cs) = denyenv (mkBody u2 k md cs) := rfl

/-- C7: a malformed body in which the top-level `request` field or
`request.object` is missing makes the engine fail at the transport
boundary (the field access throws), and it never returns a review
body — in particular never one claiming `allowed = true`. -/
theorem missing_object_errors (b : ReqBody)
    (h : b.request = none ∨
      ∃ r : AdmissionRequest, b.request = some r ∧ r.object = none) :
    (∃ e : String, denyenv b = .error e) ∧
    ∀ rv : AdmissionReview, denyenv b ≠ Except.ok rv := by
  rcases h with h | ⟨r, hr, ho⟩
  · refine ⟨⟨"TypeError: cannot read field object of undefined", ?_⟩, ?_⟩
    · rw [denyenv, h]
    · intro rv hrv
      rw [denyenv, h] at hrv
      cases hrv
  · refine ⟨⟨"TypeError: cannot read field metadata of undefined", ?_⟩, ?_⟩
    · rw [denyenv, hr]
      simp only
      rw [ho]
    · intro rv hrv
      rw [denyenv, hr] at hrv
      simp only at hrv
      rw [ho] at hrv
      cases hrv

theorem missing_object_errors_witness :
    ((⟨none⟩ : ReqBody).request = none ∨
      ∃ r : AdmissionRequest, (⟨none⟩ : ReqBody).request = some r ∧
        r.object = none) ∧
    (∃ e : String, denyenv ⟨none⟩ = .error e) ∧
    ∀ rv : AdmissionReview, denyenv ⟨none⟩ ≠ Except.ok rv :=
  ⟨Or.inl rfl, missing_object_errors ⟨none⟩ (Or.inl rfl)⟩

/-- C8 counterexample: an object declaring the unrecognized kind
`FooBar` is not rejected with any `UnsupportedKind` failure: the code
never inspects the kind and simply runs the hard-coded env rule,
here admitting the object with `allowed = true`.  `denyenv` takes no
configuration, so no configured policy can change this. -/
theorem unsupported_kind_cex :
    denyenv (mkBody "u" (some "FooBar") ⟨some "p"⟩ [⟨some "nginx", none⟩]) =
      .ok ⟨⟨true, none⟩⟩ := rfl

/-- C8 amended: the engine ignores the object's declared kind
entirely: there is no `UnsupportedKind` failure and no configurable
policy, and the response to a well-formed request is identical for
any two kind values (recognized or not) — a silently hardcoded
behavior. -/
theorem response_ignores_kind (u : String) (k1 k2 : Option String)
    (md : Metadata) (cs : List Container) :
    denyenv (mkBody u k1 md cs) = denyenv (mkBody u k2 md cs) := rfl

/-- C9: the decision procedure is a pure function of the request
body: evaluating the same body twice yields identical results, with
no state carried between evaluations. -/
theorem denyenv_deterministic (b : ReqBody) :
    (denyenv b, denyenv b).1 = (denyenv b, denyenv b).2 ∧
    ∀ cs : List Container, decideResponse cs = decideResponse cs :=
  ⟨rfl, fun _ => rfl⟩

/-- C10: a well-formed request whose `containers` list is empty is
admitted: `allowed = true` with no status block. -/
theorem empty_containers_allowed (u : String) (k : Option String)
    (md : Metadata) :
    denyenv (mkBody u k md []) = .ok ⟨⟨true, none⟩⟩ := rfl
